import Mathlib

/-!
Verification of the CPF utilities and the timetable conflict detector of the
teacherstimetable repository.  TypeScript strings are modelled as lists of
characters; each definition is a direct translation of the corresponding
function in the source.
-/

/-- Embedding of formatCPF (src/src/utils/cpfUtils.ts): removes every period
and hyphen from the string, keeping all other characters in order. -/
def formatCPF (s : List Char) : List Char :=
  s.filter (fun c => !(c == '.' || c == '-'))

/-- Embedding of validateCPFFormat (src/src/utils/cpfUtils.ts): cleans the
string and tests it against the anchored pattern of exactly 11 digits. -/
def validateCPFFormat (s : List Char) : Bool :=
  let cleaned := formatCPF s
  cleaned.length == 11 && cleaned.all (fun c => c.isDigit)

/-- Embedding of allDigitsSame (src/src/utils/cpfUtils.ts): the anchored
pattern of one digit followed by ten copies of that same digit. -/
def allDigitsSame (s : List Char) : Bool :=
  match s with
  | [] => false
  | c :: rest => c.isDigit && rest.length == 10 && rest.all (fun x => x == c)

/-- Embedding of calculateCheckDigit (src/src/utils/cpfUtils.ts): reduce over
the digit list paired with its weight, take the sum mod 11, and map remainders
below 2 to 0 and the rest to 11 minus the remainder. -/
def calculateCheckDigit (digits weights : List Nat) : Nat :=
  let sum := (digits.zip weights).foldl (fun acc p => acc + p.1 * p.2) 0
  let remainder := sum % 11
  if remainder < 2 then 0 else 11 - remainder

/-- Conversion of a digit character to its numeric value, as Number does on a
single-digit string. -/
def charToDigit (c : Char) : Nat := c.toNat - '0'.toNat

/-- Embedding of validateCPF (src/src/utils/cpfUtils.ts): clean, check the
11-digit format, reject repdigits, then verify the two check digits. -/
def validateCPF (s : List Char) : Bool :=
  let cleaned := formatCPF s
  if !validateCPFFormat cleaned then false
  else if allDigitsSame cleaned then false
  else
    let digits := cleaned.map charToDigit
    let firstCheckDigit := calculateCheckDigit (digits.take 9) [10, 9, 8, 7, 6, 5, 4, 3, 2]
    if firstCheckDigit != digits.getD 9 0 then false
    else
      let secondCheckDigit := calculateCheckDigit (digits.take 10) [11, 10, 9, 8, 7, 6, 5, 4, 3, 2]
      if secondCheckDigit != digits.getD 10 0 then false
      else true

/-- The replacement string of displayCPF: the four capture groups of the
match (3, 3, 3 and 2 characters) joined by period, period and hyphen. -/
def insertSeps (ds : List Char) : List Char :=
  ds.take 3 ++ '.' :: (ds.drop 3).take 3 ++ '.' :: (ds.drop 6).take 3 ++ '-' :: (ds.drop 9).take 2

/-- JavaScript String.replace with a non-global regex of 11 consecutive
digits: rewrite the leftmost run of 11 digits with insertSeps and leave the
rest of the string alone; with no match the string is returned unchanged. -/
def replace11 : List Char → List Char
  | [] => []
  | c :: rest =>
    let l := c :: rest
    if (l.take 11).length == 11 && (l.take 11).all (fun x => x.isDigit) then
      insertSeps (l.take 11) ++ l.drop 11
    else
      c :: replace11 rest

/-- Embedding of displayCPF (src/src/utils/cpfUtils.ts): clean the input;
if the cleaned string does not have exactly 11 characters return the input
unchanged, otherwise return the cleaned string with the digit-group
replacement applied. -/
def displayCPF (s : List Char) : List Char :=
  let cleaned := formatCPF s
  if cleaned.length ≠ 11 then s
  else replace11 cleaned

/-- The DDD.DDD.DDD-DD shape of the spec: 14 characters, digits everywhere
except a period at positions 3 and 7 and a hyphen at position 11. -/
def matchesCPFPattern (l : List Char) : Bool :=
  match l with
  | [a, b, c, s1, d, e, f, s2, g, h, i, s3, j, k] =>
      [a, b, c, d, e, f, g, h, i, j, k].all (fun x => x.isDigit) &&
        s1 == '.' && s2 == '.' && s3 == '-'
  | _ => false

/-- Check digit as the spec words it: weight the digits by the given
descending weights, sum the products, take the remainder mod 11; below 2 the
check digit is 0, otherwise 11 minus the remainder. -/
def specCheckDigit (ds ws : List Nat) : Nat :=
  let sum := (List.zipWith (fun a b => a * b) ds ws).sum
  let remainder := sum % 11
  if remainder < 2 then 0 else 11 - remainder

/-- A row of the timetable collection as the dashboard reads it
(src/unnamed/part_003): owning teacher, day, time, subject and room. -/
structure TimeSlot where
  teacherId : String
  day : String
  time : String
  subject : String
  room : String
deriving DecidableEq, Repr

/-- The value hasConflict returns: the flag and the conflict type, null
modelled as none. -/
structure ConflictResult where
  hasConflict : Bool
  type : Option String
deriving DecidableEq, Repr

/-- Embedding of hasConflict (src/unnamed/part_003): filter the slots of the
given day and time; with 2 or more matches report a room conflict when the
set of rooms is smaller than the match list, otherwise a general conflict;
with fewer than 2 matches report no conflict. -/
def hasConflict (slots : List TimeSlot) (day time : String) : ConflictResult :=
  let slotsAtThisTime := slots.filter (fun s => s.day == day && s.time == time)
  if slotsAtThisTime.length ≥ 2 then
    let roomsUsed := slotsAtThisTime.map (fun s => s.room)
    let uniqueRooms := roomsUsed.dedup
    if uniqueRooms.length < roomsUsed.length then ⟨true, some "room"⟩
    else ⟨true, some "general"⟩
  else ⟨false, none⟩

/-- Cleaning is stable: the output of formatCPF contains no period and no
hyphen, so cleaning it again changes nothing. -/
lemma formatCPF_idem (s : List Char) : formatCPF (formatCPF s) = formatCPF s := by
  apply List.filter_eq_self.mpr
  intro a ha
  exact (List.mem_filter.mp ha).2

/-- Claim C8: canonicalize (formatCPF) is idempotent: cleaning an already
cleaned string returns it unchanged. -/
theorem formatCPF_idempotent (s : List Char) :
    formatCPF (formatCPF s) = formatCPF s :=
  formatCPF_idem s

/-- Claim C7: validateCPF accepts the known-valid reference number
52998224725. -/
theorem validateCPF_reference_true :
    validateCPF ['5', '2', '9', '9', '8', '2', '2', '4', '7', '2', '5'] = true := by
  decide

/-- validateCPFFormat unfolded into a proposition: the cleaned string has
exactly 11 characters and every one of them is a digit. -/
lemma validateCPFFormat_iff (s : List Char) :
    validateCPFFormat s = true ↔
      ((formatCPF s).length = 11 ∧ ∀ c ∈ formatCPF s, c.isDigit = true) := by
  simp [validateCPFFormat, List.all_eq_true]

/-- Re-cleaning before the format test changes nothing. -/
lemma validateCPFFormat_clean (s : List Char) :
    validateCPFFormat (formatCPF s) = validateCPFFormat s := by
  simp [validateCPFFormat, formatCPF_idem]

/-- Claim C6: a string whose canonical form is not exactly 11 digits is
rejected by validateCPF, and validateCPFFormat holds exactly when the
canonical form is 11 ASCII digits. -/
theorem validateCPF_format_gate (s : List Char) :
    (¬((formatCPF s).length = 11 ∧ ∀ c ∈ formatCPF s, c.isDigit = true) →
      validateCPF s = false) ∧
    (validateCPFFormat s = true ↔
      ((formatCPF s).length = 11 ∧ ∀ c ∈ formatCPF s, c.isDigit = true)) := by
  refine ⟨fun hbad => ?_, validateCPFFormat_iff s⟩
  have hf : validateCPFFormat (formatCPF s) = false := by
    rw [validateCPFFormat_clean]
    rcases hb : validateCPFFormat s with _ | _
    · rfl
    · exact absurd ((validateCPFFormat_iff s).mp hb) hbad
  simp [validateCPF, hf]

/-- Witness for claim C6 at the single-letter input a. -/
theorem validateCPF_format_gate_witness :
    (¬((formatCPF ['a']).length = 11 ∧ ∀ c ∈ formatCPF ['a'], c.isDigit = true)) ∧
      validateCPF ['a'] = false :=
  ⟨by decide, (validateCPF_format_gate ['a']).1 (by decide)⟩

/-- Claim C5: a string whose canonical form is 11 copies of one digit is
rejected by validateCPF. -/
theorem validateCPF_repdigit_false (s : List Char) (c : Char) (hc : c.isDigit = true)
    (h : formatCPF s = List.replicate 11 c) : validateCPF s = false := by
  have hads : allDigitsSame (formatCPF s) = true := by
    rw [h]
    show allDigitsSame (c :: List.replicate 10 c) = true
    simp [allDigitsSame, hc]
  rcases hf : validateCPFFormat (formatCPF s) with _ | _
  · simp [validateCPF, hf]
  · simp [validateCPF, hf, hads]

/-- Witness for claim C5 at eleven zeros. -/
theorem validateCPF_repdigit_false_witness :
    Char.isDigit '0' = true ∧
      formatCPF (List.replicate 11 '0') = List.replicate 11 '0' ∧
      validateCPF (List.replicate 11 '0') = false :=
  ⟨by decide, by decide,
    validateCPF_repdigit_false (List.replicate 11 '0') '0' (by decide) (by decide)⟩

/-- Sample slot: teacher t1 on Monday 08:00 in room R1. -/
def slotA : TimeSlot := ⟨"t1", "Mon", "08:00", "Math", "R1"⟩

/-- Sample slot: teacher t2 on Monday 08:00 in the same room R1. -/
def slotB : TimeSlot := ⟨"t2", "Mon", "08:00", "Physics", "R1"⟩

/-- Sample slot: teacher t2 on Monday 08:00 in a different room R2. -/
def slotC : TimeSlot := ⟨"t2", "Mon", "08:00", "Physics", "R2"⟩

/-- Sample slot: the same teacher t1 as slotA, same day and time, room R2. -/
def slotD : TimeSlot := ⟨"t1", "Mon", "08:00", "Physics", "R2"⟩

/-- Eta expansion of the room projection, for rewriting. -/
lemma room_eta : (fun s : TimeSlot => s.room) = TimeSlot.room := rfl

/-- Claim C2: hasConflict classifies a cell by the entries matching its day
and time: fewer than 2 matches give no conflict; 2 or more matches with a
repeated room (the set of rooms smaller than the match count) give a room
conflict; 2 or more matches with pairwise distinct rooms give a general
conflict. -/
theorem hasConflict_classification (slots : List TimeSlot) (day time : String) :
    ((slots.filter (fun s => s.day == day && s.time == time)).length < 2 →
      hasConflict slots day time = ⟨false, none⟩) ∧
    (2 ≤ (slots.filter (fun s => s.day == day && s.time == time)).length →
      ((slots.filter (fun s => s.day == day && s.time == time)).map TimeSlot.room).toFinset.card <
        (slots.filter (fun s => s.day == day && s.time == time)).length →
      hasConflict slots day time = ⟨true, some "room"⟩) ∧
    (2 ≤ (slots.filter (fun s => s.day == day && s.time == time)).length →
      ((slots.filter (fun s => s.day == day && s.time == time)).map TimeSlot.room).Nodup →
      hasConflict slots day time = ⟨true, some "general"⟩) := by
  refine ⟨fun h1 => ?_, fun h2 hcard => ?_, fun h2 hnd => ?_⟩
  · have hlt : ¬(2 ≤ (slots.filter (fun s => s.day == day && s.time == time)).length) := by
      omega
    simp [hasConflict, hlt]
  · rw [List.card_toFinset] at hcard
    have hlt :
        ((slots.filter (fun s => s.day == day && s.time == time)).map TimeSlot.room).dedup.length <
          ((slots.filter (fun s => s.day == day && s.time == time)).map TimeSlot.room).length := by
      rw [List.length_map]
      exact hcard
    simp [hasConflict, room_eta, h2, hlt]
    exact hcard
  · have hd :
        ((slots.filter (fun s => s.day == day && s.time == time)).map TimeSlot.room).dedup =
          (slots.filter (fun s => s.day == day && s.time == time)).map TimeSlot.room :=
      List.dedup_eq_self.mpr hnd
    have hge :
        ¬(((slots.filter (fun s => s.day == day && s.time == time)).map TimeSlot.room).dedup.length <
          ((slots.filter (fun s => s.day == day && s.time == time)).map TimeSlot.room).length) := by
      rw [hd]
      omega
    simp [hasConflict, room_eta, h2, hge]
    rw [hd, List.length_map]

/-- Witness for claim C2: the empty cell, a room clash and an all-distinct
clash. -/
theorem hasConflict_classification_witness :
    hasConflict [] "Mon" "08:00" = ⟨false, none⟩ ∧
      hasConflict [slotA, slotB] "Mon" "08:00" = ⟨true, some "room"⟩ ∧
      hasConflict [slotA, slotC] "Mon" "08:00" = ⟨true, some "general"⟩ :=
  ⟨(hasConflict_classification [] "Mon" "08:00").1 (by decide),
    (hasConflict_classification [slotA, slotB] "Mon" "08:00").2.1 (by decide)
      (by rw [List.card_toFinset]; decide),
    (hasConflict_classification [slotA, slotC] "Mon" "08:00").2.2 (by decide) (by decide)⟩

/-- Claim C4 fails as stated: two slots of the same teacher at the same day
and time are flagged as a conflict even though only one teacher is
involved. -/
theorem hasConflict_two_teachers_cex :
    (hasConflict [slotA, slotD] "Mon" "08:00").hasConflict = true ∧
      (([slotA, slotD].filter (fun s => s.day == "Mon" && s.time == "08:00")).map
          TimeSlot.teacherId).toFinset.card < 2 := by
  constructor
  · decide
  · rw [List.card_toFinset]
    decide

/-- Claim C4 amended: when no two slots of the list share both a teacher and
a (day, time) pair, a reported conflict implies at least two distinct
teachers among the matching slots. -/
theorem hasConflict_two_teachers (slots : List TimeSlot) (day time : String)
    (hinv : slots.Pairwise
      (fun a b => ¬(a.teacherId = b.teacherId ∧ a.day = b.day ∧ a.time = b.time)))
    (hc : (hasConflict slots day time).hasConflict = true) :
    2 ≤ ((slots.filter (fun s => s.day == day && s.time == time)).map
        TimeSlot.teacherId).toFinset.card := by
  have h2 : 2 ≤ (slots.filter (fun s => s.day == day && s.time == time)).length := by
    by_contra h2
    simp [hasConflict, h2] at hc
  have hsub : (slots.filter (fun s => s.day == day && s.time == time)).Sublist slots :=
    List.filter_sublist slots
  have hpw : (slots.filter (fun s => s.day == day && s.time == time)).Pairwise
      (fun a b => ¬(a.teacherId = b.teacherId ∧ a.day = b.day ∧ a.time = b.time)) :=
    List.Pairwise.sublist hsub hinv
  have hne : (slots.filter (fun s => s.day == day && s.time == time)).Pairwise
      (fun a b => a.teacherId ≠ b.teacherId) := by
    refine List.Pairwise.imp_of_mem ?_ hpw
    intro a b ha hb hab
    have hap := (List.mem_filter.mp ha).2
    have hbp := (List.mem_filter.mp hb).2
    simp only [Bool.and_eq_true, beq_iff_eq] at hap hbp
    intro heq
    exact hab ⟨heq, by rw [hap.1, hbp.1], by rw [hap.2, hbp.2]⟩
  have hnd : ((slots.filter (fun s => s.day == day && s.time == time)).map
      TimeSlot.teacherId).Nodup :=
    List.Pairwise.map TimeSlot.teacherId (fun a b h => h) hne
  rw [List.toFinset_card_of_nodup hnd, List.length_map]
  exact h2

/-- Witness for the amended claim C4: two different teachers in the same
cell. -/
theorem hasConflict_two_teachers_witness :
    2 ≤ (([slotA, slotB].filter (fun s => s.day == "Mon" && s.time == "08:00")).map
        TimeSlot.teacherId).toFinset.card :=
  hasConflict_two_teachers [slotA, slotB] "Mon" "08:00" (by decide) (by decide)

/-- Claim C10: hasConflict only depends on the multiset of slots: permuting
the input list never changes the result. -/
theorem hasConflict_perm_invariant (l1 l2 : List TimeSlot) (hp : l1.Perm l2)
    (day time : String) :
    hasConflict l1 day time = hasConflict l2 day time := by
  have hm : (l1.filter (fun s => s.day == day && s.time == time)).Perm
      (l2.filter (fun s => s.day == day && s.time == time)) :=
    hp.filter (fun s => s.day == day && s.time == time)
  have hlen := hm.length_eq
  have hrooms : ((l1.filter (fun s => s.day == day && s.time == time)).map TimeSlot.room).Perm
      ((l2.filter (fun s => s.day == day && s.time == time)).map TimeSlot.room) :=
    hm.map TimeSlot.room
  have hmaplen := hrooms.length_eq
  have hded := hrooms.dedup.length_eq
  simp only [hasConflict, room_eta]
  rw [hlen, hmaplen, hded]

/-- Witness for claim C10 at a two-element swap. -/
theorem hasConflict_perm_invariant_witness :
    hasConflict [slotA, slotC] "Mon" "08:00" = hasConflict [slotC, slotA] "Mon" "08:00" :=
  hasConflict_perm_invariant [slotA, slotC] [slotC, slotA]
    (List.Perm.swap slotC slotA []) "Mon" "08:00"

/-- A digit character is neither a period nor a hyphen, so cleaning keeps
it. -/
lemma digit_not_sep (c : Char) (h : c.isDigit = true) :
    (!(c == '.' || c == '-')) = true := by
  rcases hb : (c == '.' || c == '-') with _ | _
  · rfl
  · exfalso
    simp only [Bool.or_eq_true, beq_iff_eq] at hb
    rcases hb with h1 | h1 <;> (subst h1; exact absurd h (by decide))

/-- Cleaning a string of digits changes nothing. -/
lemma formatCPF_of_digits (l : List Char) (h : ∀ c ∈ l, c.isDigit = true) :
    formatCPF l = l :=
  List.filter_eq_self.mpr (fun a ha => digit_not_sep a (h a ha))

/-- Cleaning distributes over concatenation. -/
lemma formatCPF_append (a b : List Char) :
    formatCPF (a ++ b) = formatCPF a ++ formatCPF b :=
  List.filter_append a b

/-- Cleaning a cons keeps the head exactly when it is not a separator. -/
lemma formatCPF_cons (c : Char) (m : List Char) :
    formatCPF (c :: m) =
      if (!(c == '.' || c == '-')) then c :: formatCPF m else formatCPF m :=
  List.filter_cons

/-- The reduce of validateCPF expressed as the sum of the products: folding
the zipped digit and weight lists starting from a equals a plus the sum of
the pointwise products. -/
lemma foldl_zip_mul (ds : List Nat) (ws : List Nat) (a : Nat) :
    (ds.zip ws).foldl (fun acc p => acc + p.1 * p.2) a =
      a + (List.zipWith (fun x y => x * y) ds ws).sum := by
  induction ds generalizing ws a with
  | nil => simp
  | cons d ds ih =>
    cases ws with
    | nil => simp
    | cons w ws =>
      simp only [List.zip_cons_cons, List.foldl_cons, List.zipWith_cons_cons,
        List.sum_cons]
      rw [ih, Nat.add_assoc]

/-- The code's check digit agrees with the spec's wording of the check
digit on every digit and weight list. -/
lemma calculateCheckDigit_eq_spec (ds ws : List Nat) :
    calculateCheckDigit ds ws = specCheckDigit ds ws := by
  simp [calculateCheckDigit, specCheckDigit, foldl_zip_mul]

/-- A list of length 11 is an explicit 11-tuple. -/
lemma length_eleven_eq {α : Type} (l : List α) (h : l.length = 11) :
    ∃ a0 a1 a2 a3 a4 a5 a6 a7 a8 a9 a10,
      l = [a0, a1, a2, a3, a4, a5, a6, a7, a8, a9, a10] := by
  obtain _ | ⟨b0, t⟩ := l
  · exact absurd h (by simp)
  obtain _ | ⟨b1, t⟩ := t
  · exact absurd h (by simp)
  obtain _ | ⟨b2, t⟩ := t
  · exact absurd h (by simp)
  obtain _ | ⟨b3, t⟩ := t
  · exact absurd h (by simp)
  obtain _ | ⟨b4, t⟩ := t
  · exact absurd h (by simp)
  obtain _ | ⟨b5, t⟩ := t
  · exact absurd h (by simp)
  obtain _ | ⟨b6, t⟩ := t
  · exact absurd h (by simp)
  obtain _ | ⟨b7, t⟩ := t
  · exact absurd h (by simp)
  obtain _ | ⟨b8, t⟩ := t
  · exact absurd h (by simp)
  obtain _ | ⟨b9, t⟩ := t
  · exact absurd h (by simp)
  obtain _ | ⟨b10, t⟩ := t
  · exact absurd h (by simp)
  obtain _ | ⟨b11, t⟩ := t
  · exact ⟨b0, b1, b2, b3, b4, b5, b6, b7, b8, b9, b10, rfl⟩
  · exact absurd h (by simp)

/-- A length-11 string that differs from eleven copies of its first
character fails the repdigit test. -/
lemma allDigitsSame_eq_false (l : List Char)
    (hne : l ≠ List.replicate 11 (l.getD 0 ' ')) :
    allDigitsSame l = false := by
  rcases hA : allDigitsSame l with _ | _
  · rfl
  exfalso
  apply hne
  cases l with
  | nil => exact absurd hA (by decide)
  | cons c rest =>
    simp only [allDigitsSame, Bool.and_eq_true, beq_iff_eq, List.all_eq_true] at hA
    obtain ⟨⟨hc, hlen⟩, hall⟩ := hA
    rw [List.getD_cons_zero]
    apply List.eq_replicate_iff.mpr
    refine ⟨by simp [hlen], ?_⟩
    intro b hb
    rcases List.mem_cons.mp hb with h | h
    · exact h
    · exact hall b h

/-- The reference CPF 52998224725 as a character list. -/
def refCPF : List Char := ['5', '2', '9', '9', '8', '2', '2', '4', '7', '2', '5']

/-- Claim C1: on a canonical form of 11 digits that are not all identical,
validateCPF accepts exactly when digit 10 equals the check digit of digits
1 to 9 under weights 10 down to 2 and digit 11 equals the check digit of
digits 1 to 10 under weights 11 down to 2, with the check digit as the spec
words it. -/
theorem validateCPF_checksum_iff (s : List Char)
    (h11 : (formatCPF s).length = 11)
    (hdig : ∀ c ∈ formatCPF s, c.isDigit = true)
    (hne : formatCPF s ≠ List.replicate 11 ((formatCPF s).getD 0 ' ')) :
    (validateCPF s = true ↔
      (specCheckDigit (((formatCPF s).map charToDigit).take 9)
          [10, 9, 8, 7, 6, 5, 4, 3, 2] = ((formatCPF s).map charToDigit).getD 9 0 ∧
        specCheckDigit (((formatCPF s).map charToDigit).take 10)
          [11, 10, 9, 8, 7, 6, 5, 4, 3, 2] =
          ((formatCPF s).map charToDigit).getD 10 0)) := by
  have hfmt : validateCPFFormat (formatCPF s) = true := by
    rw [validateCPFFormat_clean]
    exact (validateCPFFormat_iff s).mpr ⟨h11, hdig⟩
  have hads : allDigitsSame (formatCPF s) = false := allDigitsSame_eq_false _ hne
  simp only [validateCPF, hfmt, Bool.not_true, Bool.false_eq_true, if_false, hads,
    calculateCheckDigit_eq_spec]
  split_ifs with h1 h2
  · simp [bne_iff_ne] at h1
    simp [h1]
  · simp [bne_iff_ne] at h2
    simp [h2]
  · simp [bne_iff_ne] at h1 h2
    simp [h1, h2]

/-- Witness for claim C1 at the reference CPF. -/
theorem validateCPF_checksum_iff_witness :
    (formatCPF refCPF).length = 11 ∧
      (validateCPF refCPF = true ↔
        (specCheckDigit (((formatCPF refCPF).map charToDigit).take 9)
            [10, 9, 8, 7, 6, 5, 4, 3, 2] =
            ((formatCPF refCPF).map charToDigit).getD 9 0 ∧
          specCheckDigit (((formatCPF refCPF).map charToDigit).take 10)
            [11, 10, 9, 8, 7, 6, 5, 4, 3, 2] =
            ((formatCPF refCPF).map charToDigit).getD 10 0)) :=
  ⟨by decide, validateCPF_checksum_iff refCPF (by decide) (by decide) (by decide)⟩

/-- A string shorter than 11 characters holds no run of 11 digits, so the
replacement leaves it unchanged. -/
lemma replace11_short (l : List Char) (h : l.length < 11) : replace11 l = l := by
  induction l with
  | nil => rfl
  | cons c rest ih =>
    have hlen : ((c :: rest).take 11).length ≠ 11 := by
      rw [List.length_take]
      omega
    have hcond : (((c :: rest).take 11).length == 11 &&
        ((c :: rest).take 11).all (fun x => x.isDigit)) = false := by
      rw [beq_eq_false_iff_ne.mpr hlen, Bool.false_and]
    have hr : rest.length < 11 := by
      simp only [List.length_cons] at h
      omega
    have hne2 : ¬((((c :: rest).take 11).length == 11 &&
        ((c :: rest).take 11).all (fun x => x.isDigit)) = true) := by
      rw [hcond]
      exact Bool.false_ne_true
    simp only [replace11]
    rw [if_neg hne2, ih hr]

/-- On 11 digits the replacement fires at the head and produces the
separated groups. -/
lemma replace11_digits (l : List Char) (h11 : l.length = 11)
    (hdig : l.all (fun x => x.isDigit) = true) :
    replace11 l = insertSeps l := by
  cases l with
  | nil => simp at h11
  | cons c rest =>
    have htake : (c :: rest).take 11 = c :: rest :=
      List.take_of_length_le (le_of_eq h11)
    have hcond : (((c :: rest).take 11).length == 11 &&
        ((c :: rest).take 11).all (fun x => x.isDigit)) = true := by
      rw [htake]
      simp [h11, hdig]
    have hdrop : (c :: rest).drop 11 = [] :=
      List.drop_eq_nil_of_le (le_of_eq h11)
    simp only [replace11]
    rw [if_pos hcond, htake, hdrop, List.append_nil]

/-- On 11 characters that are not all digits the replacement finds no match
and leaves the string unchanged. -/
lemma replace11_not_all (l : List Char) (h11 : l.length = 11)
    (hnd : l.all (fun x => x.isDigit) = false) :
    replace11 l = l := by
  cases l with
  | nil => simp at h11
  | cons c rest =>
    have htake : (c :: rest).take 11 = c :: rest :=
      List.take_of_length_le (le_of_eq h11)
    have hcond : (((c :: rest).take 11).length == 11 &&
        ((c :: rest).take 11).all (fun x => x.isDigit)) = false := by
      rw [htake, hnd, Bool.and_false]
    have hr : rest.length < 11 := by
      simp only [List.length_cons] at h11
      omega
    have hne2 : ¬((((c :: rest).take 11).length == 11 &&
        ((c :: rest).take 11).all (fun x => x.isDigit)) = true) := by
      rw [hcond]
      exact Bool.false_ne_true
    simp only [replace11]
    rw [if_neg hne2, replace11_short rest hr]

/-- Cleaning drops a leading period. -/
lemma formatCPF_dot_cons (m : List Char) : formatCPF ('.' :: m) = formatCPF m := by
  simp [formatCPF_cons]

/-- Cleaning drops a leading hyphen. -/
lemma formatCPF_dash_cons (m : List Char) : formatCPF ('-' :: m) = formatCPF m := by
  simp [formatCPF_cons]

/-- Cleaning the separated groups of an 11-digit string recovers exactly the
11 digits. -/
lemma format_insertSeps (t : List Char) (h11 : t.length = 11)
    (hdig : ∀ c ∈ t, c.isDigit = true) :
    formatCPF (insertSeps t) = t := by
  have h1 : formatCPF (t.take 3) = t.take 3 :=
    formatCPF_of_digits _ (fun c hc => hdig c (List.take_subset _ _ hc))
  have h2 : formatCPF ((t.drop 3).take 3) = (t.drop 3).take 3 :=
    formatCPF_of_digits _ (fun c hc => hdig c (List.drop_subset _ _ (List.take_subset _ _ hc)))
  have h3 : formatCPF ((t.drop 6).take 3) = (t.drop 6).take 3 :=
    formatCPF_of_digits _ (fun c hc => hdig c (List.drop_subset _ _ (List.take_subset _ _ hc)))
  have h4 : formatCPF ((t.drop 9).take 2) = (t.drop 9).take 2 :=
    formatCPF_of_digits _ (fun c hc => hdig c (List.drop_subset _ _ (List.take_subset _ _ hc)))
  simp only [insertSeps, formatCPF_append, formatCPF_dot_cons, formatCPF_dash_cons,
    h1, h2, h3, h4]
  obtain ⟨a0, a1, a2, a3, a4, a5, a6, a7, a8, a9, a10, rfl⟩ := length_eleven_eq t h11
  rfl

/-- The replacement only inserts separators, so cleaning after it gives the
same result as cleaning the original string. -/
lemma formatCPF_replace11 (l : List Char) : formatCPF (replace11 l) = formatCPF l := by
  induction l with
  | nil => rfl
  | cons c rest ih =>
    by_cases hcond : (((c :: rest).take 11).length == 11 &&
        ((c :: rest).take 11).all (fun x => x.isDigit)) = true
    · have h := hcond
      simp only [Bool.and_eq_true, beq_iff_eq, List.all_eq_true] at h
      obtain ⟨h11, hdig⟩ := h
      have key : replace11 (c :: rest) =
          insertSeps ((c :: rest).take 11) ++ (c :: rest).drop 11 := by
        simp only [replace11]
        rw [if_pos hcond]
      rw [key, formatCPF_append, format_insertSeps _ h11 hdig]
      conv_rhs => rw [← List.take_append_drop 11 (c :: rest)]
      rw [formatCPF_append, formatCPF_of_digits _ hdig]
    · have key : replace11 (c :: rest) = c :: replace11 rest := by
        simp only [replace11]
        rw [if_neg hcond]
      rw [key, formatCPF_cons, formatCPF_cons, ih]

/-- Display never changes the canonical form: it only adds or keeps
separator punctuation. -/
lemma fmt_display (s : List Char) : formatCPF (displayCPF s) = formatCPF s := by
  by_cases h : (formatCPF s).length ≠ 11
  · simp [displayCPF, h]
  · have hd : displayCPF s = replace11 (formatCPF s) := by
      simp [displayCPF, h]
    rw [hd, formatCPF_replace11, formatCPF_idem]

/-- Claim C9: display round-trips through canonicalization: cleaning the
displayed string gives the same digits as cleaning the input. -/
theorem formatCPF_displayCPF_roundtrip (s : List Char) :
    formatCPF (displayCPF s) = formatCPF s :=
  fmt_display s

/-- Twelve characters whose canonical form is 11 letters: a
counterexample input for the display claim. -/
def cexList : List Char :=
  ['a', 'b', 'c', 'd', 'e', 'f', 'g', 'h', 'i', 'j', 'k', '-']

/-- Claim C3 fails as stated: this input has a canonical form that is not
11 digits, yet displayCPF does not return the input unchanged (the hyphen
is stripped). -/
theorem displayCPF_unchanged_cex :
    ¬((formatCPF cexList).length = 11 ∧ ∀ c ∈ formatCPF cexList, c.isDigit = true) ∧
      displayCPF cexList ≠ cexList := by
  constructor
  · decide
  · decide

/-- Claim C3 amended: displayCPF returns the input unchanged when the
canonical form does not have exactly 11 characters; on a canonical form of
11 digits it returns them in the DDD.DDD.DDD-DD pattern; on a canonical
form of 11 characters that are not all digits it returns the canonical
form. -/
theorem displayCPF_conditional (s : List Char) :
    ((formatCPF s).length ≠ 11 → displayCPF s = s) ∧
    ((formatCPF s).length = 11 → (∀ c ∈ formatCPF s, c.isDigit = true) →
      matchesCPFPattern (displayCPF s) = true ∧
        formatCPF (displayCPF s) = formatCPF s) ∧
    ((formatCPF s).length = 11 → (¬∀ c ∈ formatCPF s, c.isDigit = true) →
      displayCPF s = formatCPF s) := by
  refine ⟨fun h => ?_, fun h11 hdig => ?_, fun h11 hnd => ?_⟩
  · simp [displayCPF, h]
  · have hdisp : displayCPF s = replace11 (formatCPF s) := by
      simp [displayCPF, h11]
    have hallB : (formatCPF s).all (fun x => x.isDigit) = true :=
      List.all_eq_true.mpr hdig
    rw [hdisp, replace11_digits _ h11 hallB]
    constructor
    · obtain ⟨a0, a1, a2, a3, a4, a5, a6, a7, a8, a9, a10, he⟩ :=
        length_eleven_eq _ h11
      rw [he] at hdig ⊢
      have d0 : a0.isDigit = true := hdig a0 (by simp)
      have d1 : a1.isDigit = true := hdig a1 (by simp)
      have d2 : a2.isDigit = true := hdig a2 (by simp)
      have d3 : a3.isDigit = true := hdig a3 (by simp)
      have d4 : a4.isDigit = true := hdig a4 (by simp)
      have d5 : a5.isDigit = true := hdig a5 (by simp)
      have d6 : a6.isDigit = true := hdig a6 (by simp)
      have d7 : a7.isDigit = true := hdig a7 (by simp)
      have d8 : a8.isDigit = true := hdig a8 (by simp)
      have d9 : a9.isDigit = true := hdig a9 (by simp)
      have d10 : a10.isDigit = true := hdig a10 (by simp)
      simp [insertSeps, matchesCPFPattern, d0, d1, d2, d3, d4, d5, d6, d7, d8, d9, d10]
    · rw [format_insertSeps _ h11 hdig]
  · have hallB : (formatCPF s).all (fun x => x.isDigit) = false := by
      rcases hA : (formatCPF s).all (fun x => x.isDigit) with _ | _
      · rfl
      · exact absurd (List.all_eq_true.mp hA) hnd
    have hdisp : displayCPF s = replace11 (formatCPF s) := by
      simp [displayCPF, h11]
    rw [hdisp, replace11_not_all _ h11 hallB]

/-- Witness for the amended claim C3: a short input, the reference CPF and
the stripped-letters input. -/
theorem displayCPF_conditional_witness :
    displayCPF ['1'] = ['1'] ∧
      (matchesCPFPattern (displayCPF refCPF) = true ∧
        formatCPF (displayCPF refCPF) = formatCPF refCPF) ∧
      displayCPF cexList = formatCPF cexList :=
  ⟨(displayCPF_conditional ['1']).1 (by decide),
    (displayCPF_conditional refCPF).2.1 (by decide) (by decide),
    (displayCPF_conditional cexList).2.2 (by decide) (by decide)⟩
